import Mathlib

/-!
Shallow embedding of the mowen-mcp-server document converter and API client
request logic, with theorems checking the specification's claims about them.

The embedding follows the Go source:
- the `NoteAtom` document node and the two pure converters
  `ConvertParagraphsToNoteAtom` / `convertTextsToContent`;
- the request built by `handleSetNotePrivacy` in server.go;
- the response handling of `makeRequest`, the payload of `UploadFileViaURL`,
  and the prepare-response navigation of `UploadFile` in client.go.

Go maps are modelled as association lists whose keys are unique; inserting
replaces any existing binding for the key, so "later write wins" on
collision, as for a Go map assignment.  A nil Go slice is modelled as `none`
where the nil/non-nil distinction is observable (the `Marks` field, which the
converter only assigns when non-empty).
-/

/-- Document node of the Mowen backend (`NoteAtom` in the Go source).
`marks` is `none` exactly when the Go `Marks` slice is nil, which is the
state the converter leaves it in when no mark was appended. `attrs` models
the Go `map[string]string`. -/
inductive NoteAtom where
  | mk (type : String) (text : String) (content : List NoteAtom)
      (marks : Option (List NoteAtom)) (attrs : List (String × String))

/-- The `Type` field of a node. -/
def NoteAtom.type : NoteAtom → String
  | .mk t _ _ _ _ => t

/-- The `Text` field of a node. -/
def NoteAtom.text : NoteAtom → String
  | .mk _ x _ _ _ => x

/-- The `Content` field of a node. -/
def NoteAtom.content : NoteAtom → List NoteAtom
  | .mk _ _ c _ _ => c

/-- The `Marks` field of a node (`none` = nil slice). -/
def NoteAtom.marks : NoteAtom → Option (List NoteAtom)
  | .mk _ _ _ m _ => m

/-- The `Attrs` field of a node. -/
def NoteAtom.attrs : NoteAtom → List (String × String)
  | .mk _ _ _ _ a => a

/-- TextNode: one styled text run of the author input. -/
structure TextNode where
  text : String
  bold : Bool
  highlight : Bool
  link : String
deriving DecidableEq

/-- FileNode: file kind, source kind, source locator and open metadata map. -/
structure FileNode where
  fileType : String
  sourceType : String
  sourcePath : String
  metadata : List (String × String)
deriving DecidableEq

/-- Paragraph: author-facing input unit; `type` is the string tag the
converter switches on, `file` is the optional (`*FileNode`) file payload. -/
structure Paragraph where
  type : String
  texts : List TextNode
  noteId : String
  file : Option FileNode
deriving DecidableEq

/-- Lookup in a Go string map modelled as an association list. -/
def mapLookup (m : List (String × String)) (k : String) : Option String :=
  List.lookup k m

/-- Go map assignment `m[k] = v`: the new binding replaces any existing
binding for `k`, so no two bindings share a key. -/
def mapInsert (m : List (String × String)) (k v : String) : List (String × String) :=
  m.filter (fun kv => kv.1 != k) ++ [(k, v)]

/-- Marks collected for one text run, in the fixed source order: bold, then
highlight, then link (with `href` in the link mark's attrs). -/
def textMarks (t : TextNode) : List NoteAtom :=
  (if t.bold then [NoteAtom.mk "bold" "" [] none []] else [])
    ++ (if t.highlight then [NoteAtom.mk "highlight" "" [] none []] else [])
    ++ (if t.link ≠ "" then [NoteAtom.mk "link" "" [] none [("href", t.link)]] else [])

/-- One text Atom for one run: `text` copied verbatim; `Marks` is assigned
only when at least one mark was collected, otherwise it stays nil. -/
def textAtom (t : TextNode) : NoteAtom :=
  NoteAtom.mk "text" t.text []
    (if (textMarks t).length > 0 then some (textMarks t) else none) []

/-- `convertTextsToContent` from the Go source: one text Atom per input run,
in input order. -/
def convertTextsToContent : List TextNode → List NoteAtom
  | [] => []
  | t :: ts => textAtom t :: convertTextsToContent ts

/-- Attrs of a file Atom: the seeded map `{uuid: SourcePath, sourceType:
SourceType}`, then every metadata binding assigned into it in turn. -/
def fileAttrs (f : FileNode) : List (String × String) :=
  f.metadata.foldl (fun acc kv => mapInsert acc kv.1 kv.2)
    (mapInsert (mapInsert [] "uuid" f.sourcePath) "sourceType" f.sourceType)

/-- Atoms contributed by a single paragraph: the body of the `switch` inside
`ConvertParagraphsToNoteAtom`. Every branch appends exactly one Atom, except
a `file` paragraph whose file field is nil, which appends none. -/
def paragraphAtoms (p : Paragraph) : List NoteAtom :=
  if p.type = "quote" then
    [NoteAtom.mk "paragraph" "" (convertTextsToContent p.texts) none [("blockquote", "true")]]
  else if p.type = "note" then
    [NoteAtom.mk "note" "" [] none [("uuid", p.noteId)]]
  else if p.type = "file" then
    match p.file with
    | some f => [NoteAtom.mk f.fileType "" [] none (fileAttrs f)]
    | none => []
  else
    [NoteAtom.mk "paragraph" "" (convertTextsToContent p.texts) none []]

/-- The accumulating loop of `ConvertParagraphsToNoteAtom`, appending each
paragraph's atoms to `doc.Content`. -/
def convertParagraphsLoop : List NoteAtom → List Paragraph → List NoteAtom
  | acc, [] => acc
  | acc, p :: ps => convertParagraphsLoop (acc ++ paragraphAtoms p) ps

/-- `ConvertParagraphsToNoteAtom` from the Go source: a `doc` Atom whose
content is built by the loop over the input paragraphs. -/
def ConvertParagraphsToNoteAtom (paragraphs : List Paragraph) : NoteAtom :=
  NoteAtom.mk "doc" "" (convertParagraphsLoop [] paragraphs) none []

/-- Placeholder node, used only as the `headD` fallback in `paragraphAtom`. -/
def emptyAtom : NoteAtom := NoteAtom.mk "" "" [] none []

/-- The single Atom a paragraph contributes (meaningful for every paragraph
that is not a nil-file `file` paragraph). -/
def paragraphAtom (p : Paragraph) : NoteAtom := (paragraphAtoms p).headD emptyAtom

/-- Arguments of the set_note_privacy tool. `noShare` and `expireAt` model
the Go pointer fields: `none` = nil pointer (argument absent). -/
structure SetNotePrivacyArgs where
  noteId : String
  privacyType : String
  noShare : Option Bool
  expireAt : Option Int

/-- NotePrivacySetRule. Both fields carry `omitempty`, so the zero values
`false` / `""` are the forms that are omitted on the wire. -/
structure NotePrivacySetRule where
  noShare : Bool
  expireAt : String
deriving DecidableEq

/-- NotePrivacySet: privacy type plus optional rule branch. -/
structure NotePrivacySet where
  type : String
  rule : Option NotePrivacySetRule
deriving DecidableEq

/-- NoteSettings: the settings object carrying the privacy setting. -/
structure NoteSettings where
  privacy : Option NotePrivacySet
deriving DecidableEq

/-- NoteSetRequest: note id, settings category (`Section`) and settings. -/
structure NoteSetRequest where
  noteId : String
  Section : Int
  settings : NoteSettings
deriving DecidableEq

/-- `strconv.FormatInt(i, 10)`: base-10 decimal rendering of an integer,
with a leading minus sign for negative values. -/
def formatInt (i : Int) : String := toString i

/-- The request built by `handleSetNotePrivacy` (server.go) after argument
decoding: a fresh `NotePrivacySet` with the caller's type; when the type is
`"rule"`, a rule is allocated at its zero value and each non-nil pointer
argument is assigned into it (the expiry via `formatInt`). -/
def setNotePrivacyRequest (args : SetNotePrivacyArgs) : NoteSetRequest :=
  let rule : Option NotePrivacySetRule :=
    if args.privacyType = "rule" then
      some { noShare := args.noShare.getD false
             expireAt := match args.expireAt with
               | some e => formatInt e
               | none => "" }
    else none
  { noteId := args.noteId
    Section := 1
    settings := { privacy := some { type := args.privacyType, rule := rule } } }

/-- Response handling of `makeRequest` (client.go): any non-200 status is a
fatal error carrying the status code and the raw body text; a 200 response
yields the body for generic JSON decoding. -/
def makeRequestResult (statusCode : Nat) (respBody : String) : Except String String :=
  if statusCode ≠ 200 then
    Except.error ("API request failed with status " ++ toString statusCode ++ ": " ++ respBody)
  else
    Except.ok respBody

/-- Generic JSON value, as produced by decoding into `map[string]interface{}`. -/
inductive JValue where
  | null
  | bool (b : Bool)
  | num (n : Int)
  | str (s : String)
  | arr (xs : List JValue)
  | obj (fields : List (String × JValue))

/-- Lookup in a decoded JSON object (a Go map, so keys are unique). -/
def jlookup (m : List (String × JValue)) (k : String) : Option JValue :=
  List.lookup k m

/-- Go type assertion `v.(map[string]interface{})`: succeeds only on an
object (a missing key gives a nil interface, which also fails). -/
def asObj : JValue → Option (List (String × JValue))
  | .obj fields => some fields
  | _ => none

/-- Go type assertion `v.(string)`. -/
def asStr : JValue → Option String
  | .str s => some s
  | _ => none

/-- The request payload built by `UploadFileViaURL` (client.go): `url` and
`file_type` always; `file_name` added only when the name is non-empty. -/
def uploadFileViaURLPayload (fileURL : String) (fileType : Int) (fileName : String) :
    List (String × JValue) :=
  let req := [("url", JValue.str fileURL), ("file_type", JValue.num fileType)]
  if fileName ≠ "" then req ++ [("file_name", JValue.str fileName)] else req

/-- How far `UploadFile` gets on a given prepare response: either it returns
an error before the second (multipart POST) leg, or it reaches the multipart
POST with the given upload URL, string form fields (non-string values
skipped) and file name. -/
inductive UploadOutcome where
  | failed (msg : String)
  | multipartPost (uploadURL : String) (fields : List (String × String)) (fileName : String)
deriving DecidableEq

/-- The prepare-response navigation of `UploadFile` (client.go): assert
`data` is an object, `data["upload_url"]` a string and `data["form_data"]`
an object, returning a distinct error at the first failing assertion; only
when all three succeed is the multipart form built and posted. -/
def uploadFileFirstPhase (prepareResult : List (String × JValue)) (fileName : String) :
    UploadOutcome :=
  match (jlookup prepareResult "data").bind asObj with
  | none => .failed "invalid prepare response format"
  | some data =>
    match (jlookup data "upload_url").bind asStr with
    | none => .failed "missing upload_url in prepare response"
    | some uploadURL =>
      match (jlookup data "form_data").bind asObj with
      | none => .failed "missing form_data in prepare response"
      | some formData =>
        .multipartPost uploadURL
          (formData.filterMap (fun kv => (asStr kv.2).map (fun s => (kv.1, s))))
          fileName

/-! Helper lemmas about the association-list map model. -/

/-- Lookup on a cons cell, with propositional equality. -/
theorem lookup_cons_eq_ite {β : Type} (k a : String) (b : β) (l : List (String × β)) :
    List.lookup k ((a, b) :: l) = if k = a then some b else List.lookup k l := by
  by_cases h : k = a
  · simp [List.lookup, h]
  · simp [List.lookup, h, beq_false_of_ne h]

/-- Lookup distributes over append, preferring the left list. -/
theorem lookup_append {β : Type} (k : String) (l₁ l₂ : List (String × β)) :
    List.lookup k (l₁ ++ l₂) =
      match List.lookup k l₁ with
      | some v => some v
      | none => List.lookup k l₂ := by
  induction l₁ with
  | nil => simp
  | cons kv l₁ ih =>
      obtain ⟨a, b⟩ := kv
      by_cases h : k = a
      · simp [lookup_cons_eq_ite, h]
      · simp [lookup_cons_eq_ite, h, ih]

/-- After removing every binding for `k`, looking up `k` finds nothing. -/
theorem lookup_filter_self (m : List (String × String)) (k : String) :
    List.lookup k (m.filter (fun kv => kv.1 != k)) = none := by
  induction m with
  | nil => simp
  | cons kv m ih =>
      obtain ⟨a, b⟩ := kv
      by_cases h : a = k
      · simp [List.filter_cons, h, ih]
      · have hb : (a != k) = true := bne_iff_ne.mpr h
        simp [List.filter_cons, hb, lookup_cons_eq_ite, Ne.symm h, ih]

/-- Removing every binding for `k` does not change lookups of other keys. -/
theorem lookup_filter_ne (m : List (String × String)) (k k' : String) (h : k' ≠ k) :
    List.lookup k' (m.filter (fun kv => kv.1 != k)) = List.lookup k' m := by
  induction m with
  | nil => simp
  | cons kv m ih =>
      obtain ⟨a, b⟩ := kv
      by_cases ha : a = k
      · subst ha
        simp [List.filter_cons, lookup_cons_eq_ite, h, ih]
      · have hb : (a != k) = true := bne_iff_ne.mpr ha
        by_cases hk : k' = a
        · simp [List.filter_cons, hb, lookup_cons_eq_ite, hk]
        · simp [List.filter_cons, hb, lookup_cons_eq_ite, hk, ih]

/-- Lookup after a map assignment: the assigned key sees the new value,
every other key is unaffected. -/
theorem mapLookup_mapInsert (m : List (String × String)) (k v k' : String) :
    mapLookup (mapInsert m k v) k' = if k' = k then some v else mapLookup m k' := by
  unfold mapLookup mapInsert
  rw [lookup_append]
  by_cases h : k' = k
  · subst h
    simp [lookup_filter_self, lookup_cons_eq_ite]
  · simp [lookup_filter_ne m k k' h, lookup_cons_eq_ite, h]
    cases List.lookup k' m <;> simp

/-- A key that occurs in no binding is not found. -/
theorem lookup_eq_none_of_not_mem_keys {β : Type} (l : List (String × β)) (k : String)
    (h : k ∉ l.map Prod.fst) : List.lookup k l = none := by
  induction l with
  | nil => simp
  | cons kv l ih =>
      obtain ⟨a, b⟩ := kv
      simp only [List.map_cons, List.mem_cons] at h
      push_neg at h
      simp [lookup_cons_eq_ite, h.1, ih h.2]

/-- Folding map assignments over a list with pairwise-distinct keys (a Go
map): an assigned key sees its value, all other keys fall through to the
initial map. -/
theorem mapLookup_foldl_mapInsert (l : List (String × String)) (init : List (String × String))
    (k : String) (hnd : (l.map Prod.fst).Nodup) :
    mapLookup (l.foldl (fun acc kv => mapInsert acc kv.1 kv.2) init) k =
      match List.lookup k l with
      | some v => some v
      | none => mapLookup init k := by
  induction l generalizing init with
  | nil => simp
  | cons kv l ih =>
      obtain ⟨a, b⟩ := kv
      simp only [List.map_cons, List.nodup_cons] at hnd
      rw [List.foldl_cons, ih (mapInsert init a b) hnd.2]
      by_cases h : k = a
      · subst h
        rw [lookup_eq_none_of_not_mem_keys l k hnd.1]
        simp [lookup_cons_eq_ite, mapLookup_mapInsert]
      · simp only [lookup_cons_eq_ite, h, if_false]
        cases List.lookup k l <;> simp [mapLookup_mapInsert, h]

/-! Helper lemmas about the converters. -/

/-- The text converter is the elementwise map of `textAtom`. -/
theorem convertTextsToContent_eq_map (ts : List TextNode) :
    convertTextsToContent ts = ts.map textAtom := by
  induction ts with
  | nil => rfl
  | cons t ts ih => simp [convertTextsToContent, ih]

/-- Unfolding of the converter loop: it appends each paragraph's atoms in
input order after the accumulator. -/
theorem convertParagraphsLoop_eq (ps : List Paragraph) :
    ∀ acc, convertParagraphsLoop acc ps = acc ++ ps.flatMap paragraphAtoms := by
  induction ps with
  | nil => intro acc; simp [convertParagraphsLoop]
  | cons p ps ih =>
      intro acc
      rw [convertParagraphsLoop, ih, List.flatMap_cons, List.append_assoc]

/-- The document's content is the concatenation, in input order, of each
paragraph's atoms. -/
theorem convert_content (ps : List Paragraph) :
    (ConvertParagraphsToNoteAtom ps).content = ps.flatMap paragraphAtoms := by
  rw [ConvertParagraphsToNoteAtom, NoteAtom.content, convertParagraphsLoop_eq, List.nil_append]

/-- The converter's result always carries the `doc` type tag. -/
theorem convert_type (ps : List Paragraph) :
    (ConvertParagraphsToNoteAtom ps).type = "doc" := rfl

/-- A paragraph's atom count: zero for a `file` paragraph with nil file,
one in every other case. -/
theorem paragraphAtoms_length (p : Paragraph) :
    (paragraphAtoms p).length =
      if p.type == "file" && p.file.isNone then 0 else 1 := by
  unfold paragraphAtoms
  by_cases hq : p.type = "quote"
  · simp [hq]
  · by_cases hn : p.type = "note"
    · simp [hn]
    · by_cases hf : p.type = "file"
      · cases hfile : p.file with
        | none => simp [hq, hn, hf, hfile]
        | some f => simp [hq, hn, hf, hfile]
      · simp [hq, hn, hf]

/-- Every paragraph that is not a nil-file `file` paragraph contributes
exactly the one atom `paragraphAtom p`. -/
theorem paragraphAtoms_eq_singleton (p : Paragraph) (h : p.type = "file" → p.file ≠ none) :
    paragraphAtoms p = [paragraphAtom p] := by
  unfold paragraphAtom
  by_cases hq : p.type = "quote"
  · simp [paragraphAtoms, hq]
  · by_cases hn : p.type = "note"
    · simp [paragraphAtoms, hq, hn]
    · by_cases hf : p.type = "file"
      · cases hfile : p.file with
        | none => exact absurd hfile (h hf)
        | some f => simp [paragraphAtoms, hq, hn, hf, hfile]
      · simp [paragraphAtoms, hq, hn, hf]

/-- Case analysis of `textAtom`: the guard `len(marks) > 0` holds exactly
when some flag or the link is set. -/
theorem textAtom_eq (t : TextNode) :
    textAtom t =
      NoteAtom.mk "text" t.text []
        (if t.bold = false ∧ t.highlight = false ∧ t.link = "" then none
         else some (textMarks t)) [] := by
  unfold textAtom
  rcases hb : t.bold <;> rcases hh : t.highlight <;> by_cases hl : t.link = "" <;>
    simp [textMarks, hb, hh, hl]

/-! Claim theorems. -/

/-- C1, counterexample: the claim fails as stated. A `file` paragraph whose
file field is nil contributes no entry, so on this one-paragraph input the
`doc` Atom's content does not hold one entry per input paragraph. -/
theorem doc_one_entry_per_paragraph_cex :
    (ConvertParagraphsToNoteAtom
        [{ type := "file", texts := [], noteId := "", file := none }]).content.length = 0 ∧
    ([{ type := "file", texts := [], noteId := "", file := none }] : List Paragraph).length = 1 :=
  ⟨rfl, rfl⟩

/-- C1, amended: for every list of paragraphs in which every `file`-kind
paragraph has a non-nil file field, the converter returns a `doc` Atom whose
content holds exactly one entry per input paragraph, in input order (the
content is the elementwise image of the input; nothing is sorted or
normalized). -/
theorem doc_one_entry_per_paragraph (ps : List Paragraph)
    (H : ∀ p ∈ ps, p.type = "file" → p.file ≠ none) :
    (ConvertParagraphsToNoteAtom ps).type = "doc" ∧
    (ConvertParagraphsToNoteAtom ps).content = ps.map paragraphAtom ∧
    (ConvertParagraphsToNoteAtom ps).content.length = ps.length := by
  have hc : ∀ l : List Paragraph, (∀ p ∈ l, p.type = "file" → p.file ≠ none) →
      l.flatMap paragraphAtoms = l.map paragraphAtom := by
    intro l
    induction l with
    | nil => intro _; rfl
    | cons p l ih =>
        intro hl
        rw [List.flatMap_cons, List.map_cons,
          paragraphAtoms_eq_singleton p (hl p (List.mem_cons_self p l)),
          ih (fun q hq => hl q (List.mem_cons_of_mem p hq))]
        rfl
  have hc' := hc ps H
  rw [convert_content]
  exact ⟨rfl, hc', by rw [hc', List.length_map]⟩

/-- Witness for `doc_one_entry_per_paragraph` at a concrete two-paragraph
input (one plain, one quote paragraph). -/
theorem doc_one_entry_per_paragraph_witness :
    (ConvertParagraphsToNoteAtom
        [{ type := "", texts := [{ text := "hello", bold := false, highlight := false, link := "" }],
           noteId := "", file := none },
         { type := "quote", texts := [], noteId := "", file := none }]).type = "doc" ∧
    (ConvertParagraphsToNoteAtom
        [{ type := "", texts := [{ text := "hello", bold := false, highlight := false, link := "" }],
           noteId := "", file := none },
         { type := "quote", texts := [], noteId := "", file := none }]).content =
      List.map paragraphAtom
        [{ type := "", texts := [{ text := "hello", bold := false, highlight := false, link := "" }],
           noteId := "", file := none },
         { type := "quote", texts := [], noteId := "", file := none }] ∧
    (ConvertParagraphsToNoteAtom
        [{ type := "", texts := [{ text := "hello", bold := false, highlight := false, link := "" }],
           noteId := "", file := none },
         { type := "quote", texts := [], noteId := "", file := none }]).content.length = 2 :=
  doc_one_entry_per_paragraph _ (by decide)

/-- C2: a `file` paragraph with a nil file field contributes no Atom, and
the document's content length equals the number of input paragraphs minus
the number of nil-file `file` paragraphs. -/
theorem nil_file_skip_content_length (ps : List Paragraph) (p : Paragraph)
    (h1 : p.type = "file") (h2 : p.file = none) :
    paragraphAtoms p = [] ∧
    (ConvertParagraphsToNoteAtom ps).content.length =
      ps.length - ps.countP (fun q => q.type == "file" && q.file.isNone) := by
  constructor
  · simp [paragraphAtoms, h1, h2]
  · rw [convert_content]
    induction ps with
    | nil => rfl
    | cons q qs ih =>
        rw [List.flatMap_cons, List.length_append, paragraphAtoms_length q, List.countP_cons,
          List.length_cons]
        have hle := List.countP_le_length (fun q => q.type == "file" && q.file.isNone) (l := qs)
        by_cases hq : (q.type == "file" && q.file.isNone) = true
        · simp only [if_pos hq]
          omega
        · simp only [if_neg hq]
          omega

/-- Witness for `nil_file_skip_content_length`: a two-paragraph input whose
second paragraph is a nil-file `file` paragraph yields one content entry. -/
theorem nil_file_skip_content_length_witness :
    paragraphAtoms { type := "file", texts := [], noteId := "", file := none } = [] ∧
    (ConvertParagraphsToNoteAtom
        [{ type := "", texts := [], noteId := "", file := none },
         { type := "file", texts := [], noteId := "", file := none }]).content.length = 1 :=
  nil_file_skip_content_length _ _ rfl rfl

/-- C3: for every list of text runs, the text converter yields one text
Atom per input run, in input order — the lengths agree unconditionally, so
empty input yields empty output; each Atom's text is copied verbatim; its
marks are one per set flag, appended in the fixed order bold, highlight,
link, with the link mark carrying `href`; and the marks field is absent
(`none`) when no flag is set, never an empty-but-present list. -/
theorem convertTexts_spec (ts : List TextNode) :
    (convertTextsToContent ts).length = ts.length ∧
    ∀ i, ∀ h : i < ts.length,
      (convertTextsToContent ts)[i]? =
        some (NoteAtom.mk "text" ts[i].text []
          (if ts[i].bold = false ∧ ts[i].highlight = false ∧ ts[i].link = "" then none
           else some
             ((if ts[i].bold then [NoteAtom.mk "bold" "" [] none []] else [])
               ++ (if ts[i].highlight then [NoteAtom.mk "highlight" "" [] none []] else [])
               ++ (if ts[i].link ≠ "" then
                     [NoteAtom.mk "link" "" [] none [("href", ts[i].link)]]
                   else [])))
          []) := by
  constructor
  · rw [convertTextsToContent_eq_map, List.length_map]
  · intro i h
    rw [convertTextsToContent_eq_map, List.getElem?_map, List.getElem?_eq_getElem h,
      Option.map_some', textAtom_eq]
    rfl

/-- Witness for `convertTexts_spec`: empty input yields empty output, and a
run with bold, highlight and a link produces exactly the three marks in
order, the link mark carrying `href`. -/
theorem convertTexts_spec_witness :
    (convertTextsToContent []).length = 0 ∧
    (convertTextsToContent
        [{ text := "hi", bold := true, highlight := true, link := "https://x" }]).length = 1 ∧
    (convertTextsToContent
        [{ text := "hi", bold := true, highlight := true, link := "https://x" }])[0]? =
      some (NoteAtom.mk "text" "hi" []
        (some [NoteAtom.mk "bold" "" [] none [], NoteAtom.mk "highlight" "" [] none [],
               NoteAtom.mk "link" "" [] none [("href", "https://x")]]) []) :=
  ⟨(convertTexts_spec []).1,
   (convertTexts_spec [{ text := "hi", bold := true, highlight := true, link := "https://x" }]).1,
   (convertTexts_spec
       [{ text := "hi", bold := true, highlight := true, link := "https://x" }]).2 0 (by decide)⟩

/-- Lookup characterization of a file Atom's attrs: a key bound in the
metadata sees the metadata value (metadata overwrites the seeds on
collision), the seeded keys `uuid` / `sourceType` otherwise keep the file's
source locator / source kind, and no other key is present — so no key from
either merge side is lost. The key-uniqueness hypothesis reflects that the
metadata is a Go map. -/
theorem fileAttrs_lookup (f : FileNode) (k : String)
    (hnd : (f.metadata.map Prod.fst).Nodup) :
    mapLookup (fileAttrs f) k =
      match List.lookup k f.metadata with
      | some v => some v
      | none =>
          if k = "uuid" then some f.sourcePath
          else if k = "sourceType" then some f.sourceType
          else none := by
  unfold fileAttrs
  rw [mapLookup_foldl_mapInsert _ _ _ hnd]
  cases List.lookup k f.metadata with
  | some v => rfl
  | none =>
      simp only []
      rw [mapLookup_mapInsert, mapLookup_mapInsert]
      by_cases hu : k = "uuid"
      · subst hu
        simp
      · by_cases hs : k = "sourceType"
        · subst hs
          simp
        · simp [hu, hs, mapLookup]

/-- C4: a `file` paragraph with a non-nil file field contributes exactly one
Atom; its type is the file's kind string, and its attrs are the seeded map
`{uuid: source locator, sourceType: source kind}` merged with every metadata
binding, metadata winning on key collision and no key from either side
lost (stated as the lookup of an arbitrary key `k`). -/
theorem file_paragraph_atom_spec (p : Paragraph) (f : FileNode) (k : String)
    (hty : p.type = "file") (hf : p.file = some f)
    (hnd : (f.metadata.map Prod.fst).Nodup) :
    (paragraphAtoms p).map NoteAtom.type = [f.fileType] ∧
    (paragraphAtoms p).map (fun a => mapLookup a.attrs k) =
      [match List.lookup k f.metadata with
       | some v => some v
       | none =>
           if k = "uuid" then some f.sourcePath
           else if k = "sourceType" then some f.sourceType
           else none] ∧
    (ConvertParagraphsToNoteAtom [p]).content = paragraphAtoms p := by
  have hatoms : paragraphAtoms p = [NoteAtom.mk f.fileType "" [] none (fileAttrs f)] := by
    simp [paragraphAtoms, hty, hf]
  refine ⟨?_, ?_, ?_⟩
  · rw [hatoms]
    rfl
  · rw [hatoms, List.map_singleton, NoteAtom.attrs, fileAttrs_lookup f k hnd]
  · rw [convert_content]
    simp

/-- Witness for `file_paragraph_atom_spec`: an image file whose metadata
overrides the seeded `uuid` key; the merged attrs return the metadata value. -/
theorem file_paragraph_atom_spec_witness :
    (paragraphAtoms
        { type := "file", texts := [], noteId := "",
          file := some { fileType := "image", sourceType := "url", sourcePath := "file-xyz",
                         metadata := [("uuid", "meta-wins"), ("alt", "cat")] } }).map
        NoteAtom.type = ["image"] ∧
    (paragraphAtoms
        { type := "file", texts := [], noteId := "",
          file := some { fileType := "image", sourceType := "url", sourcePath := "file-xyz",
                         metadata := [("uuid", "meta-wins"), ("alt", "cat")] } }).map
        (fun a => mapLookup a.attrs "uuid") = [some "meta-wins"] ∧
    (ConvertParagraphsToNoteAtom
        [{ type := "file", texts := [], noteId := "",
           file := some { fileType := "image", sourceType := "url", sourcePath := "file-xyz",
                          metadata := [("uuid", "meta-wins"), ("alt", "cat")] } }]).content =
      paragraphAtoms
        { type := "file", texts := [], noteId := "",
          file := some { fileType := "image", sourceType := "url", sourcePath := "file-xyz",
                         metadata := [("uuid", "meta-wins"), ("alt", "cat")] } } :=
  file_paragraph_atom_spec
    { type := "file", texts := [], noteId := "",
      file := some { fileType := "image", sourceType := "url", sourcePath := "file-xyz",
                     metadata := [("uuid", "meta-wins"), ("alt", "cat")] } }
    { fileType := "image", sourceType := "url", sourcePath := "file-xyz",
      metadata := [("uuid", "meta-wins"), ("alt", "cat")] }
    "uuid" rfl rfl (by decide)

/-- C5: a paragraph whose kind string is none of `quote`, `note`, `file`
(including the empty default and any unrecognized kind) falls through to the
default branch: the converter never fails (it is a total function) and the
paragraph contributes exactly one `paragraph` Atom with no attrs and content
equal to the text converter's output over its text runs. -/
theorem default_paragraph_spec (p : Paragraph)
    (h1 : p.type ≠ "quote") (h2 : p.type ≠ "note") (h3 : p.type ≠ "file") :
    paragraphAtoms p =
      [NoteAtom.mk "paragraph" "" (convertTextsToContent p.texts) none []] ∧
    (ConvertParagraphsToNoteAtom [p]).content =
      [NoteAtom.mk "paragraph" "" (convertTextsToContent p.texts) none []] := by
  have hatoms : paragraphAtoms p =
      [NoteAtom.mk "paragraph" "" (convertTextsToContent p.texts) none []] := by
    simp [paragraphAtoms, h1, h2, h3]
  refine ⟨hatoms, ?_⟩
  rw [convert_content]
  simp [hatoms]

/-- Witness for `default_paragraph_spec` at an unrecognized kind string. -/
theorem default_paragraph_spec_witness :
    paragraphAtoms
        { type := "mystery", texts := [{ text := "a", bold := false, highlight := false, link := "" }],
          noteId := "", file := none } =
      [NoteAtom.mk "paragraph" ""
        (convertTextsToContent [{ text := "a", bold := false, highlight := false, link := "" }])
        none []] ∧
    (ConvertParagraphsToNoteAtom
        [{ type := "mystery", texts := [{ text := "a", bold := false, highlight := false, link := "" }],
           noteId := "", file := none }]).content =
      [NoteAtom.mk "paragraph" ""
        (convertTextsToContent [{ text := "a", bold := false, highlight := false, link := "" }])
        none []] :=
  default_paragraph_spec _ (by decide) (by decide) (by decide)

/-- C6: the request built by the set-privacy handler always has `Section` 1
and the caller's note id; the privacy variant's type is the caller's
privacy_type verbatim (no validation); the rule branch is present exactly
when the type is `"rule"`, in which case the no-share flag is taken from the
optional argument (absent pointer = the omitted zero value `false`) and the
expiry is rendered as a base-10 decimal string (absent pointer = the omitted
zero value `""`). -/
theorem setNotePrivacy_request_spec (args : SetNotePrivacyArgs) :
    (setNotePrivacyRequest args).Section = 1 ∧
    (setNotePrivacyRequest args).noteId = args.noteId ∧
    ∃ ps, (setNotePrivacyRequest args).settings.privacy = some ps ∧
      ps.type = args.privacyType ∧
      ps.rule = (if args.privacyType = "rule" then
          some { noShare := args.noShare.getD false
                 expireAt := match args.expireAt with
                   | some e => formatInt e
                   | none => "" }
        else none) :=
  ⟨rfl, rfl, _, rfl, rfl, rfl⟩

/-- C10: two set-privacy invocations agreeing on note id and on a privacy
type other than `"rule"` build identical requests, whatever their no-share
and expiry arguments — those arguments have no effect outside the rule
variant. -/
theorem setNotePrivacy_noRule_independent (a b : SetNotePrivacyArgs)
    (hid : a.noteId = b.noteId) (hty : a.privacyType = b.privacyType)
    (hr : a.privacyType ≠ "rule") :
    setNotePrivacyRequest a = setNotePrivacyRequest b := by
  have hr' : b.privacyType ≠ "rule" := hty ▸ hr
  simp [setNotePrivacyRequest, hid, hty, hr, hr']

/-- Witness for `setNotePrivacy_noRule_independent`: with type `"public"`,
differing no-share and expiry arguments yield the same request. -/
theorem setNotePrivacy_noRule_independent_witness :
    setNotePrivacyRequest
        { noteId := "n1", privacyType := "public", noShare := some true, expireAt := some 99 } =
      setNotePrivacyRequest
        { noteId := "n1", privacyType := "public", noShare := none, expireAt := none } :=
  setNotePrivacy_noRule_independent _ _ rfl rfl (by decide)

/-- C7: through the generic request path, a response with any non-200 HTTP
status yields an error whose message contains both the status code and the
raw response body text and carries no result value (and the path performs no
retry: the outcome is this single terminal value); a 200 response yields the
body for generic JSON decoding. -/
theorem makeRequest_status_spec (status : Nat) (respBody : String) (h : status ≠ 200) :
    (∃ msg, makeRequestResult status respBody = Except.error msg ∧
      (∃ l r, msg = l ++ toString status ++ r) ∧
      (∃ l r, msg = l ++ respBody ++ r)) ∧
    makeRequestResult 200 respBody = Except.ok respBody := by
  constructor
  · refine ⟨"API request failed with status " ++ toString status ++ ": " ++ respBody,
      by simp [makeRequestResult, h], ⟨"API request failed with status ", ": " ++ respBody, ?_⟩,
      ⟨"API request failed with status " ++ toString status ++ ": ", "", ?_⟩⟩
    · rw [String.append_assoc]
    · rw [String.append_empty]
  · simp [makeRequestResult]

/-- Witness for `makeRequest_status_spec`: a 401 response with body
`{"error":"unauthorized"}`. -/
theorem makeRequest_status_spec_witness :
    (∃ msg, makeRequestResult 401 "\x7b\"error\":\"unauthorized\"\x7d" = Except.error msg ∧
      (∃ l r, msg = l ++ toString 401 ++ r) ∧
      (∃ l r, msg = l ++ "\x7b\"error\":\"unauthorized\"\x7d" ++ r)) ∧
    makeRequestResult 200 "\x7b\"error\":\"unauthorized\"\x7d" =
      Except.ok "\x7b\"error\":\"unauthorized\"\x7d" :=
  makeRequest_status_spec 401 "\x7b\"error\":\"unauthorized\"\x7d" (by decide)

/-- C8: if the prepare response lacks an object `data`, or `data` lacks a
string `upload_url` or an object `form_data`, `UploadFile` returns the
distinct error naming that field or sub-step and never reaches the multipart
POST leg (the outcome is a `failed` value, not a `multipartPost`); the three
error messages are pairwise distinct. Failure performs no cleanup: the
returned outcome carries nothing but the message. -/
theorem uploadFile_prepare_errors (pr : List (String × JValue)) (fn : String) :
    ((jlookup pr "data").bind asObj = none →
        uploadFileFirstPhase pr fn = UploadOutcome.failed "invalid prepare response format") ∧
    (∀ data, (jlookup pr "data").bind asObj = some data →
        (jlookup data "upload_url").bind asStr = none →
        uploadFileFirstPhase pr fn =
          UploadOutcome.failed "missing upload_url in prepare response") ∧
    (∀ data u, (jlookup pr "data").bind asObj = some data →
        (jlookup data "upload_url").bind asStr = some u →
        (jlookup data "form_data").bind asObj = none →
        uploadFileFirstPhase pr fn =
          UploadOutcome.failed "missing form_data in prepare response") ∧
    (("invalid prepare response format" : String) ≠ "missing upload_url in prepare response" ∧
     ("invalid prepare response format" : String) ≠ "missing form_data in prepare response" ∧
     ("missing upload_url in prepare response" : String) ≠ "missing form_data in prepare response") ∧
    (∀ msg url fields name, UploadOutcome.failed msg ≠ UploadOutcome.multipartPost url fields name) := by
  refine ⟨?_, ?_, ?_, by refine ⟨by decide, by decide, by decide⟩, ?_⟩
  · intro h
    unfold uploadFileFirstPhase
    rw [h]
  · intro data h1 h2
    unfold uploadFileFirstPhase
    rw [h1]
    simp only []
    rw [h2]
  · intro data u h1 h2 h3
    unfold uploadFileFirstPhase
    rw [h1]
    simp only []
    rw [h2]
    simp only []
    rw [h3]
  · intro msg url fields name hcontra
    exact UploadOutcome.noConfusion hcontra

/-- Witness for `uploadFile_prepare_errors`: a prepare response whose `data`
object carries `form_data` but no `upload_url` fails with the upload_url
error before the multipart leg. -/
theorem uploadFile_prepare_errors_witness :
    uploadFileFirstPhase [("data", JValue.obj [("form_data", JValue.obj [])])] "a.png" =
      UploadOutcome.failed "missing upload_url in prepare response" :=
  (uploadFile_prepare_errors [("data", JValue.obj [("form_data", JValue.obj [])])] "a.png").2.1
    [("form_data", JValue.obj [])] rfl rfl

/-- C9: the URL-upload request payload always binds `url` to the caller's
URL and `file_type` to the caller's file type, and binds `file_name` exactly
when the caller-supplied name is non-empty (an empty name is treated as
absent, not sent as an empty field). -/
theorem uploadFileViaURL_payload_spec (fileURL : String) (fileType : Int) (fileName : String) :
    jlookup (uploadFileViaURLPayload fileURL fileType fileName) "url" =
      some (JValue.str fileURL) ∧
    jlookup (uploadFileViaURLPayload fileURL fileType fileName) "file_type" =
      some (JValue.num fileType) ∧
    jlookup (uploadFileViaURLPayload fileURL fileType fileName) "file_name" =
      (if fileName = "" then none else some (JValue.str fileName)) := by
  unfold uploadFileViaURLPayload jlookup
  by_cases h : fileName = ""
  · simp only [h, ne_eq, not_true_eq_false, if_false, if_neg]
    refine ⟨?_, ?_, ?_⟩ <;> simp [lookup_cons_eq_ite]
  · simp only [ne_eq, h, not_false_eq_true, if_true, if_pos]
    refine ⟨?_, ?_, ?_⟩ <;> simp [lookup_append, lookup_cons_eq_ite, h]
